import Mathlib

/-!
Verification development for the `ndjson` line colorizer (`src/main.rs`).

The core of the program is embedded shallowly:

* `TokenKind`, `ColoredWriter`, `ColoredWriter.set_kind`, `ColoredWriter.write`
  embed the deferred color writer.  The underlying `termcolor` sink is modelled
  as a buffer of output items: a `ctrl` item stands for one color-control
  emission (`reset()` for kind `none`, `set_color` otherwise) and a `text` item
  for one `write_all` call.  Each `text` item is annotated with the writer's
  `kind` field at the moment of the write, so that claims about "the token kind
  a span was written with" are observable; the annotation is not part of the
  byte stream and is ignored by `stripped`.
* `Value` embeds `serde_json::Value`; the object map is a list of pairs in
  insertion order (the crate is used with order-preserving maps, as the
  repository's own `test_color` ordering shows).
* `write_line`, `write_value`, `write_object` embed the three rendering
  functions; `write_elems` names the inline element loop of the `Array` arm.
  `write_line` takes the `serde_json::from_str` result as an explicit
  `Option Value` argument, since the JSON parser is an external crate.
* `Fallible.write` etc. re-embed the same writer and renderer over an abstract
  fallible sink (`Fallible.Sink`), for the error-propagation claim.
* `structView` (with `arrViews`, `objViews`) is a second, spec-side definition
  of the color-stripped structural view, written from the specification's
  words, against which the rendering functions are compared.
-/

set_option maxHeartbeats 1000000

/-- Semantic token kinds, from `enum TokenKind` in `src/main.rs`. -/
inductive TokenKind where
  | none
  | key
  | value
  | string
deriving DecidableEq, Repr

/-- The three foreground colors the program uses (`termcolor::Color`). -/
inductive Color where
  | yellow
  | green
  | cyan
deriving DecidableEq, Repr

/-- One observable action on the underlying sink: a color-control emission
(`ctrl Option.none` is the reset sequence, `ctrl (some c)` sets color `c`)
or a literal text write.  The `TokenKind` field of `text` records the
writer's current kind at the moment of the write (observational annotation;
not part of the byte stream). -/
inductive OutItem where
  | ctrl (c : Option Color)
  | text (k : TokenKind) (s : String)
deriving DecidableEq, Repr

/-- The deferred color writer `struct ColoredWriter` with its sink replaced by
the accumulated list of output items. -/
structure ColoredWriter where
  out : List OutItem
  kind : TokenKind
  deferred : Bool
deriving DecidableEq, Repr

/-- `ColoredWriter::new`: kind `None`, no pending flush. -/
def ColoredWriter.new : ColoredWriter :=
  { out := [], kind := TokenKind.none, deferred := false }

/-- The color selected for each kind inside `ColoredWriter::write`
(`None → reset`, `Key → yellow`, `Value → green`, `String → cyan`). -/
def tokenColor : TokenKind → Option Color
  | TokenKind.none => Option.none
  | TokenKind.key => some Color.yellow
  | TokenKind.value => some Color.green
  | TokenKind.string => some Color.cyan

/-- `ColoredWriter::set_kind`: record the requested kind; mark a flush as
pending exactly when the stored kind changes. -/
def ColoredWriter.set_kind (w : ColoredWriter) (k : TokenKind) : ColoredWriter :=
  if w.kind ≠ k then { w with kind := k, deferred := true } else w

/-- `ColoredWriter::write`: a no-op on the empty string; otherwise flush the
pending color-control emission if one is deferred, then write the bytes. -/
def ColoredWriter.write (w : ColoredWriter) (s : String) : ColoredWriter :=
  if s.isEmpty then w
  else
    let w1 :=
      if w.deferred then
        { w with out := w.out ++ [OutItem.ctrl (tokenColor w.kind)], deferred := false }
      else w
    { w1 with out := w1.out ++ [OutItem.text w1.kind s] }

/-- Modelled from the spec: the canonical number representation of the external
`serde_json` number type (the crate is not part of this repository).  An
integer carries its `Int` value; a float carries its decimal rendering as an
integral part and a (possibly empty) list of fractional digits. -/
inductive JNumber where
  | int (i : Int)
  | float (ip : Int) (frac : List (Fin 10))
deriving DecidableEq, Repr

/-- Decimal digit characters of a natural number (fuel-driven so that it
reduces definitionally). -/
def natDigitsAux : Nat → Nat → List Char
  | 0, _ => []
  | fuel + 1, n =>
      if n < 10 then [Nat.digitChar n]
      else natDigitsAux fuel (n / 10) ++ [Nat.digitChar (n % 10)]

/-- Decimal digit characters of a natural number. -/
def natDigits (n : Nat) : List Char := natDigitsAux (n + 1) n

/-- Decimal rendering of an integer (no decimal point). -/
def intStr (i : Int) : String :=
  if i < 0 then "-" ++ String.mk (natDigits i.natAbs) else String.mk (natDigits i.natAbs)

/-- Fractional part rendering: an empty digit list renders as the single
digit `0` (floats always show at least one fractional digit). -/
def fracStr (frac : List (Fin 10)) : String :=
  if frac.isEmpty then "0" else String.mk (frac.map fun d => Nat.digitChar d.val)

/-- Modelled from the spec: the canonical scalar text of a JSON number as
produced by the external formatter — integers without a decimal point, floats
with at least one fractional digit. -/
def JNumber.toCanonical : JNumber → String
  | JNumber.int i => intStr i
  | JNumber.float ip frac => intStr ip ++ "." ++ fracStr frac

/-- `serde_json::Value` with insertion-ordered object pairs. -/
inductive Value where
  | null
  | bool (b : Bool)
  | num (n : JNumber)
  | str (s : String)
  | arr (elems : List Value)
  | obj (pairs : List (String × Value))

/-- The `Display` text of a scalar value (`value.to_string()` in the default
arm of `write_value`); unreachable for strings, arrays and objects. -/
def scalarString : Value → String
  | Value.null => "null"
  | Value.bool b => if b then "true" else "false"
  | Value.num n => n.toCanonical
  | _ => ""

mutual

/-- `fn write_value`: strings with kind `String`, arrays bracketed with
`, `-separated elements, objects braced (or `{}` when empty), every other
value (null/bool/number) as its `to_string()` with kind `Value`. -/
def write_value (w : ColoredWriter) : Value → ColoredWriter
  | Value.str s => (w.set_kind TokenKind.string).write s
  | Value.arr es =>
      let w1 := (w.set_kind TokenKind.none).write "["
      let w2 := write_elems w1 es true
      (w2.set_kind TokenKind.none).write "]"
  | Value.obj ps =>
      if ps.isEmpty then (w.set_kind TokenKind.none).write "\x7b\x7d"
      else
        let w1 := (w.set_kind TokenKind.none).write "\x7b "
        let w2 := write_object w1 ps true
        (w2.set_kind TokenKind.none).write " \x7d"
  | v => (w.set_kind TokenKind.value).write (scalarString v)

/-- The element loop of the `Value::Array` arm of `write_value`: every element
with index `> 0` is preceded by `", "` written with kind `None`. -/
def write_elems (w : ColoredWriter) : List Value → Bool → ColoredWriter
  | [], _ => w
  | v :: rest, first =>
      let w1 := if first then w else (w.set_kind TokenKind.none).write ", "
      let w2 := write_value w1 v
      write_elems w2 rest false

/-- `fn write_object`: every pair with index `> 0` is preceded by a bare
`writer.write(" ")` (no `set_kind`), then the key with kind `Key`, `": "` with
kind `None`, then the value. -/
def write_object (w : ColoredWriter) : List (String × Value) → Bool → ColoredWriter
  | [], _ => w
  | (k, v) :: rest, first =>
      let w1 := if first then w else w.write " "
      let w2 := (w1.set_kind TokenKind.key).write k
      let w3 := (w2.set_kind TokenKind.none).write ": "
      let w4 := write_value w3 v
      write_object w4 rest false

end

/-- `fn write_line`, with the `serde_json::from_str(line)` result passed in as
`pr` (the parser is an external crate; `Option.none` is a parse failure):
a non-empty object renders braceless via `write_object`, a non-empty array via
`write_value`, everything else writes the original line; then kind `None` and
one newline. -/
def write_line (w : ColoredWriter) (line : String) (pr : Option Value) : ColoredWriter :=
  let w1 :=
    match pr with
    | some (Value.obj ps) => if ps.isEmpty then w.write line else write_object w ps true
    | some (Value.arr es) => if es.isEmpty then w.write line else write_value w (Value.arr es)
    | _ => w.write line
  (w1.set_kind TokenKind.none).write "\n"

/-- Text items of an output buffer, with their kind annotations; control
emissions are dropped. -/
def textItems (l : List OutItem) : List (TokenKind × String) :=
  l.filterMap fun
    | OutItem.ctrl _ => Option.none
    | OutItem.text k s => some (k, s)

/-- Color-stripped byte stream of an output buffer: control emissions are
dropped and the text writes are concatenated. -/
def stripped (l : List OutItem) : String :=
  String.join ((textItems l).map Prod.snd)

/-- Number of control emissions in an output buffer. -/
def ctrlCount (l : List OutItem) : Nat :=
  (l.filter fun
    | OutItem.ctrl _ => true
    | OutItem.text _ _ => false).length

/-- The writer kind that rendering a value leaves behind: strings end on a
`String`-kind write, arrays and objects end on a `None`-kind bracket write,
scalars end on a `Value`-kind write. -/
def kindAfterValue : Value → TokenKind
  | Value.str _ => TokenKind.string
  | Value.arr _ => TokenKind.none
  | Value.obj _ => TokenKind.none
  | _ => TokenKind.value

mutual

/-- Predicted annotated text spans of `write_value` (empty spans are dropped,
since a zero-length `write` emits nothing). -/
def specText : Value → List (TokenKind × String)
  | Value.str s => if s.isEmpty then [] else [(TokenKind.string, s)]
  | Value.arr es =>
      [(TokenKind.none, "[")] ++ elemsText es true ++ [(TokenKind.none, "]")]
  | Value.obj ps =>
      if ps.isEmpty then [(TokenKind.none, "\x7b\x7d")]
      else [(TokenKind.none, "\x7b ")] ++ objText TokenKind.none ps true
        ++ [(TokenKind.none, " \x7d")]
  | v => [(TokenKind.value, scalarString v)]

/-- Predicted annotated text spans of the array-element loop. -/
def elemsText : List Value → Bool → List (TokenKind × String)
  | [], _ => []
  | v :: rest, first =>
      (if first then [] else [(TokenKind.none, ", ")]) ++ specText v
        ++ elemsText rest false

/-- Predicted annotated text spans of `write_object`; `cur` is the writer kind
on entry, which is what the bare separator-space write gets annotated with. -/
def objText (cur : TokenKind) : List (String × Value) → Bool → List (TokenKind × String)
  | [], _ => []
  | (k, v) :: rest, first =>
      (if first then [] else [(cur, " ")])
        ++ (if k.isEmpty then [] else [(TokenKind.key, k)])
        ++ [(TokenKind.none, ": ")]
        ++ specText v
        ++ objText (kindAfterValue v) rest false

end

mutual

/-- Spec-side structural view of a nested value, written from the
specification's words: strings unquoted, scalars canonical, arrays wrapped in
`[...]` with elements separated by `", "`, objects wrapped in `{ ... }` (or
`{}` when empty) with `key: value` pairs separated by a single space. -/
def structView : Value → String
  | Value.str s => s
  | Value.arr es => "[" ++ arrViews es ++ "]"
  | Value.obj ps => if ps.isEmpty then "\x7b\x7d" else "\x7b " ++ objViews ps ++ " \x7d"
  | v => scalarString v

/-- Spec-side view of array elements, separated by `", "`. -/
def arrViews : List Value → String
  | [] => ""
  | [v] => structView v
  | v :: rest => structView v ++ ", " ++ arrViews rest

/-- Spec-side view of object pairs, `key: value` separated by single spaces;
this braceless form is also the top-level object view. -/
def objViews : List (String × Value) → String
  | [] => ""
  | [(k, v)] => k ++ ": " ++ structView v
  | (k, v) :: rest => k ++ ": " ++ structView v ++ " " ++ objViews rest

end

/-- Number of newline characters among a list of annotated text spans whose
annotation is kind `None`. -/
def nlSpans (l : List (TokenKind × String)) : Nat :=
  (l.map fun p => if p.1 = TokenKind.none then p.2.data.count '\n' else 0).sum

/-- Number of newline characters among the text spans written with kind
`None`. -/
def nlNoneCount (l : List OutItem) : Nat :=
  nlSpans (textItems l)

/-- The classification's RAW outcome, read off the code's match in
`write_line`: a parse failure, a top-level scalar, an empty object or an
empty array all fall through to the verbatim `writer.write(line)` arm. -/
def rawParse : Option Value → Bool
  | some (Value.obj ps) => ps.isEmpty
  | some (Value.arr es) => es.isEmpty
  | _ => true

namespace Fallible

/-- Abstract fallible sink: the three `termcolor` operations the writer uses,
each able to fail with an error `ε` (modelling `io::Error`). -/
structure Sink (σ ε : Type) where
  reset : σ → Except ε σ
  set_color : Color → σ → Except ε σ
  write_all : String → σ → Except ε σ

/-- `struct ColoredWriter` over an abstract sink state. -/
structure Writer (σ : Type) where
  writer : σ
  kind : TokenKind
  deferred : Bool

/-- `ColoredWriter::set_kind` (pure, as in the source). -/
def set_kind (w : Writer σ) (k : TokenKind) : Writer σ :=
  if w.kind ≠ k then { w with kind := k, deferred := true } else w

/-- The `if self.deferred` block of `ColoredWriter::write`: emit the control
sequence for the current kind (`reset` for `None`, `set_color` otherwise),
propagating the sink error of the `?`; clear the flag on success. -/
def flush (S : Sink σ ε) (w : Writer σ) : Except ε (Writer σ) :=
  if w.deferred then
    match tokenColor w.kind with
    | Option.none =>
      match S.reset w.writer with
      | Except.error e => Except.error e
      | Except.ok st => Except.ok { w with writer := st, deferred := false }
    | some c =>
      match S.set_color c w.writer with
      | Except.error e => Except.error e
      | Except.ok st => Except.ok { w with writer := st, deferred := false }
  else Except.ok w

/-- `ColoredWriter::write` over the fallible sink: early return on the empty
string; flush when deferred, then `write_all`, each `?` propagating the first
sink error (written as explicit matches, the desugaring of `?`). -/
def write (S : Sink σ ε) (w : Writer σ) (s : String) : Except ε (Writer σ) :=
  if s.isEmpty then Except.ok w
  else
    match flush S w with
    | Except.error e => Except.error e
    | Except.ok w1 =>
      match S.write_all s w1.writer with
      | Except.error e => Except.error e
      | Except.ok st => Except.ok { w1 with writer := st }

mutual

/-- `fn write_value` over the fallible sink. -/
def write_value (S : Sink σ ε) (w : Writer σ) : Value → Except ε (Writer σ)
  | Value.str s => write S (set_kind w TokenKind.string) s
  | Value.arr es =>
    match write S (set_kind w TokenKind.none) "[" with
    | Except.error e => Except.error e
    | Except.ok w1 =>
      match write_elems S w1 es true with
      | Except.error e => Except.error e
      | Except.ok w2 => write S (set_kind w2 TokenKind.none) "]"
  | Value.obj ps =>
    if ps.isEmpty then write S (set_kind w TokenKind.none) "\x7b\x7d"
    else
      match write S (set_kind w TokenKind.none) "\x7b " with
      | Except.error e => Except.error e
      | Except.ok w1 =>
        match write_object S w1 ps true with
        | Except.error e => Except.error e
        | Except.ok w2 => write S (set_kind w2 TokenKind.none) " \x7d"
  | v => write S (set_kind w TokenKind.value) (scalarString v)

/-- The array-element loop over the fallible sink. -/
def write_elems (S : Sink σ ε) (w : Writer σ) :
    List Value → Bool → Except ε (Writer σ)
  | [], _ => Except.ok w
  | v :: rest, first =>
    match (if first then Except.ok w
           else write S (set_kind w TokenKind.none) ", ") with
    | Except.error e => Except.error e
    | Except.ok w1 =>
      match write_value S w1 v with
      | Except.error e => Except.error e
      | Except.ok w2 => write_elems S w2 rest false

/-- `fn write_object` over the fallible sink. -/
def write_object (S : Sink σ ε) (w : Writer σ) :
    List (String × Value) → Bool → Except ε (Writer σ)
  | [], _ => Except.ok w
  | (k, v) :: rest, first =>
    match (if first then Except.ok w else write S w " ") with
    | Except.error e => Except.error e
    | Except.ok w1 =>
      match write S (set_kind w1 TokenKind.key) k with
      | Except.error e => Except.error e
      | Except.ok w2 =>
        match write S (set_kind w2 TokenKind.none) ": " with
        | Except.error e => Except.error e
        | Except.ok w3 =>
          match write_value S w3 v with
          | Except.error e => Except.error e
          | Except.ok w4 => write_object S w4 rest false

end

/-- `fn write_line` over the fallible sink, with the parse result passed in;
the `?` after the classification match and the final newline write both
propagate the first sink error. -/
def write_line (S : Sink σ ε) (w : Writer σ) (line : String) (pr : Option Value) :
    Except ε (Writer σ) :=
  match
    (match pr with
     | some (Value.obj ps) =>
       if ps.isEmpty then write S w line else write_object S w ps true
     | some (Value.arr es) =>
       if es.isEmpty then write S w line else write_value S w (Value.arr es)
     | _ => write S w line) with
  | Except.error e => Except.error e
  | Except.ok w1 => write S (set_kind w1 TokenKind.none) "\n"

/-- Every operation of the sink succeeds on every state. -/
def Infallible (S : Sink σ ε) : Prop :=
  (∀ st, ∃ st', S.reset st = Except.ok st') ∧
  (∀ c st, ∃ st', S.set_color c st = Except.ok st') ∧
  (∀ s st, ∃ st', S.write_all s st = Except.ok st')

/-- The error `e` is one that some operation of the sink itself produces. -/
def SinkRaised (S : Sink σ ε) (e : ε) : Prop :=
  (∃ st, S.reset st = Except.error e) ∨
  (∃ c st, S.set_color c st = Except.error e) ∨
  (∃ s st, S.write_all s st = Except.error e)

/-- The trivial always-succeeding sink (a pure buffer, discarding bytes). -/
def okSink : Sink Unit Unit :=
  { reset := fun _ => Except.ok ()
    set_color := fun _ _ => Except.ok ()
    write_all := fun _ _ => Except.ok () }

/-- A sink whose `write_all` always fails (e.g. a closed pipe). -/
def brokenSink : Sink Unit String :=
  { reset := fun _ => Except.ok ()
    set_color := fun _ _ => Except.ok ()
    write_all := fun _ _ => Except.error "broken pipe" }

end Fallible

/-- Normal form of `set_kind`: the kind becomes `k`, the output is untouched,
and the pending flag is set exactly when the stored kind changed. -/
theorem cw_set_kind_eq (w : ColoredWriter) (k : TokenKind) :
    w.set_kind k =
      { out := w.out, kind := k, deferred := w.deferred || decide (w.kind ≠ k) } := by
  cases w with
  | mk out kind deferred =>
    simp only [ColoredWriter.set_kind]
    by_cases h : kind = k
    · subst h; simp
    · simp [h]

/-- A zero-length `write` is a complete no-op. -/
theorem cw_write_empty (w : ColoredWriter) (s : String) (h : s.isEmpty = true) :
    w.write s = w := by
  simp [ColoredWriter.write, h]

/-- Normal form of a non-empty `write`: one control emission when a flush is
pending, then the text annotated with the current kind; the pending flag is
clear afterwards and the kind is untouched. -/
theorem cw_write_eq (w : ColoredWriter) (s : String) (h : s.isEmpty = false) :
    w.write s =
      { out := w.out ++ (if w.deferred then [OutItem.ctrl (tokenColor w.kind)] else [])
                ++ [OutItem.text w.kind s],
        kind := w.kind, deferred := false } := by
  cases w with
  | mk out kind deferred =>
    simp only [ColoredWriter.write, h]
    cases deferred <;> simp

@[simp]
theorem textItems_append (a b : List OutItem) :
    textItems (a ++ b) = textItems a ++ textItems b := by
  simp [textItems]

theorem join_append (a b : List String) :
    String.join (a ++ b) = String.join a ++ String.join b := by
  apply String.ext
  simp

theorem stripped_append (a b : List OutItem) :
    stripped (a ++ b) = stripped a ++ stripped b := by
  simp [stripped, textItems_append, join_append]

theorem ctrlCount_append (a b : List OutItem) :
    ctrlCount (a ++ b) = ctrlCount a + ctrlCount b := by
  simp [ctrlCount]

@[simp]
theorem textItems_nil : textItems [] = [] := rfl

@[simp]
theorem textItems_cons_ctrl (c : Option Color) (l : List OutItem) :
    textItems (OutItem.ctrl c :: l) = textItems l := by
  simp [textItems]

@[simp]
theorem textItems_cons_text (k : TokenKind) (s : String) (l : List OutItem) :
    textItems (OutItem.text k s :: l) = (k, s) :: textItems l := by
  simp [textItems]

@[simp]
theorem cw_set_kind_kind (w : ColoredWriter) (k : TokenKind) :
    (w.set_kind k).kind = k := by
  rw [cw_set_kind_eq]

@[simp]
theorem cw_set_kind_out (w : ColoredWriter) (k : TokenKind) :
    (w.set_kind k).out = w.out := by
  rw [cw_set_kind_eq]

@[simp]
theorem cw_write_kind (w : ColoredWriter) (s : String) :
    (w.write s).kind = w.kind := by
  cases h : s.isEmpty
  · rw [cw_write_eq w s h]
  · rw [cw_write_empty w s h]

/-- A string with non-empty character data is not empty. -/
theorem isEmpty_false_of_data {s : String} (hd : s.data ≠ []) : s.isEmpty = false := by
  cases h : s.isEmpty
  · rfl
  · exfalso
    apply hd
    rw [(String.isEmpty_iff s).mp h]

theorem natDigits_ne_nil (n : Nat) : natDigits n ≠ [] := by
  simp only [natDigits, natDigitsAux]
  split <;> simp

theorem intStr_isEmpty (i : Int) : (intStr i).isEmpty = false := by
  apply isEmpty_false_of_data
  unfold intStr
  split
  · simp
  · simpa using natDigits_ne_nil i.natAbs

theorem toCanonical_isEmpty (n : JNumber) : n.toCanonical.isEmpty = false := by
  cases n with
  | int i => simpa [JNumber.toCanonical] using intStr_isEmpty i
  | float ip frac =>
    apply isEmpty_false_of_data
    simp [JNumber.toCanonical]

@[simp]
theorem scalarString_null_isEmpty : (scalarString Value.null).isEmpty = false := rfl

@[simp]
theorem scalarString_bool_isEmpty (b : Bool) :
    (scalarString (Value.bool b)).isEmpty = false := by
  cases b <;> rfl

@[simp]
theorem scalarString_num_isEmpty (n : JNumber) :
    (scalarString (Value.num n)).isEmpty = false := toCanonical_isEmpty n

/-- Rendering a value always leaves the writer kind predicted by
`kindAfterValue`, independently of the starting state. -/
theorem write_value_kind (w : ColoredWriter) (v : Value) :
    (write_value w v).kind = kindAfterValue v := by
  cases v with
  | str s => simp [write_value, kindAfterValue]
  | arr es => simp [write_value, kindAfterValue]
  | obj ps =>
    simp only [write_value, kindAfterValue]
    split <;> simp
  | null => simp [write_value, kindAfterValue]
  | bool b => simp [write_value, kindAfterValue]
  | num n => simp [write_value, kindAfterValue]

@[simp]
theorem textItems_ctrl_opt (c : Option Color) (p : Prop) [Decidable p] :
    textItems (if p then [OutItem.ctrl c] else []) = [] := by
  split <;> simp

@[simp]
theorem textItems_ctrl_opt' (c : Option Color) (p : Prop) [Decidable p] :
    textItems (if p then [] else [OutItem.ctrl c]) = [] := by
  split <;> simp

@[simp]
theorem lit_isEmpty_lbrack : ("[" : String).isEmpty = false := rfl

@[simp]
theorem lit_isEmpty_rbrack : ("]" : String).isEmpty = false := rfl

@[simp]
theorem lit_isEmpty_comma : (", " : String).isEmpty = false := rfl

@[simp]
theorem lit_isEmpty_lbrace : ("\x7b " : String).isEmpty = false := rfl

@[simp]
theorem lit_isEmpty_rbrace : (" \x7d" : String).isEmpty = false := rfl

@[simp]
theorem lit_isEmpty_braces : ("\x7b\x7d" : String).isEmpty = false := rfl

@[simp]
theorem lit_isEmpty_colon : (": " : String).isEmpty = false := rfl

@[simp]
theorem lit_isEmpty_space : (" " : String).isEmpty = false := rfl

@[simp]
theorem lit_isEmpty_newline : ("\n" : String).isEmpty = false := rfl

mutual

/-- Characterization of `write_value`: its annotated text spans are exactly
`specText`, appended to whatever was already in the buffer, for every starting
writer state. -/
theorem textItems_write_value : ∀ (v : Value) (w : ColoredWriter),
    textItems (write_value w v).out = textItems w.out ++ specText v
  | Value.str s, w => by
    cases hs : s.isEmpty <;>
      simp [write_value, cw_write_eq, cw_write_empty, hs, cw_set_kind_eq, specText]
  | Value.null, w => by
    simp [write_value, cw_write_eq, cw_set_kind_eq, specText]
  | Value.bool b, w => by
    simp [write_value, cw_write_eq, cw_set_kind_eq, specText]
  | Value.num n, w => by
    simp [write_value, cw_write_eq, cw_set_kind_eq, specText]
  | Value.arr es, w => by
    simp [write_value, textItems_write_elems es true, cw_write_eq, cw_set_kind_eq,
      specText, textItems_append]
  | Value.obj ps, w => by
    cases hp : ps.isEmpty <;>
      simp [write_value, hp, textItems_write_object ps true, cw_write_eq,
        cw_set_kind_eq, specText, textItems_append]

/-- Characterization of the array-element loop. -/
theorem textItems_write_elems : ∀ (es : List Value) (first : Bool) (w : ColoredWriter),
    textItems (write_elems w es first).out = textItems w.out ++ elemsText es first
  | [], first, w => by
    simp [write_elems, elemsText]
  | v :: rest, first, w => by
    cases first <;>
      simp [write_elems, textItems_write_elems rest false, textItems_write_value v,
        cw_write_eq, cw_set_kind_eq, elemsText, textItems_append]

/-- Characterization of `write_object`: the separator space of each pair with
index `> 0` is annotated with the writer kind on entry to that pair, which is
the kind the previous value left behind. -/
theorem textItems_write_object :
    ∀ (ps : List (String × Value)) (first : Bool) (w : ColoredWriter),
      textItems (write_object w ps first).out = textItems w.out ++ objText w.kind ps first
  | [], first, w => by
    simp [write_object, objText]
  | (k, v) :: rest, first, w => by
    cases first <;> cases hk : k.isEmpty <;>
      simp [write_object, textItems_write_object rest false, textItems_write_value v,
        write_value_kind, cw_write_eq, cw_write_empty, hk, cw_set_kind_eq, objText,
        textItems_append]

end

@[simp]
theorem join_nil : String.join [] = "" := rfl

@[simp]
theorem join_cons (s : String) (l : List String) :
    String.join (s :: l) = s ++ String.join l := by
  apply String.ext
  simp

@[simp]
theorem lit_isEmpty_empty : ("" : String).isEmpty = true := rfl

theorem str_ite_empty (k : String) : (if k.isEmpty then ("" : String) else k) = k := by
  split
  · next h => exact ((String.isEmpty_iff k).mp h).symm
  · rfl

theorem arrViews_cons (v : Value) (rest : List Value) :
    arrViews (v :: rest) =
      structView v ++ ((if rest.isEmpty then "" else ", ") ++ arrViews rest) := by
  cases rest <;> simp [arrViews, String.append_empty, String.append_assoc]

theorem objViews_cons (k : String) (v : Value) (rest : List (String × Value)) :
    objViews ((k, v) :: rest) =
      k ++ (": " ++ (structView v ++ ((if rest.isEmpty then "" else " ") ++ objViews rest))) := by
  cases rest <;> simp [objViews, String.append_empty, String.append_assoc]

theorem join_key_spans (k : String) :
    String.join ((if k.isEmpty then [] else [(TokenKind.key, k)]).map Prod.snd) = k := by
  cases hk : k.isEmpty
  · simp
  · simp [(String.isEmpty_iff k).mp hk]

mutual

/-- The concatenated text spans of a value are its spec-side structural
view. -/
theorem join_specText : ∀ (v : Value),
    String.join ((specText v).map Prod.snd) = structView v
  | Value.str s => by
    cases hs : s.isEmpty
    · simp [specText, structView, hs]
    · simp [specText, structView, hs, (String.isEmpty_iff s).mp hs]
  | Value.null => by simp [specText, structView]
  | Value.bool b => by simp [specText, structView]
  | Value.num n => by simp [specText, structView]
  | Value.arr es => by
    simp [specText, structView, join_elemsText es true, List.map_append, join_append,
      String.append_assoc, String.append_empty, String.empty_append]
  | Value.obj ps => by
    cases hp : ps.isEmpty
    · simp [specText, structView, hp, join_objText ps true, List.map_append,
        join_append, String.append_assoc, String.append_empty, String.empty_append]
    · simp [specText, structView, hp]

/-- The concatenated text spans of the element loop are the spec-side
`", "`-separated element views (with a leading separator when not first). -/
theorem join_elemsText : ∀ (es : List Value) (first : Bool),
    String.join ((elemsText es first).map Prod.snd) =
      (if (es.isEmpty || first) then "" else ", ") ++ arrViews es
  | [], first => by simp [elemsText, arrViews]
  | v :: rest, first => by
    cases first <;> cases hrest : rest.isEmpty <;>
      simp [elemsText, arrViews_cons, join_specText v, join_elemsText rest false, hrest,
        List.map_append, join_append, String.append_assoc, String.append_empty,
        String.empty_append, Bool.or_false]

/-- The concatenated text spans of the pair loop are the spec-side
space-separated `key: value` views (with a leading separator when not
first); the kind annotations do not matter for the bytes. -/
theorem join_objText : ∀ (ps : List (String × Value)) (first : Bool) (cur : TokenKind),
    String.join ((objText cur ps first).map Prod.snd) =
      (if (ps.isEmpty || first) then "" else " ") ++ objViews ps
  | [], first, cur => by simp [objText, objViews]
  | (k, v) :: rest, first, cur => by
    cases first <;> cases hrest : rest.isEmpty <;>
      simp [objText, objViews_cons, join_key_spans, join_specText v, hrest,
        join_objText rest false (kindAfterValue v), List.map_append, join_append,
        String.append_assoc, String.append_empty, String.empty_append, Bool.or_false]

end

theorem stripped_write_ne (w : ColoredWriter) (s : String) (h : s.isEmpty = false) :
    stripped (w.write s).out = stripped w.out ++ s := by
  rw [cw_write_eq w s h]
  simp [stripped, List.map_append, join_append, String.append_empty]

/-- Rendering any value appends exactly its structural view to the stripped
byte stream, from every starting state. -/
theorem stripped_write_value (w : ColoredWriter) (v : Value) :
    stripped (write_value w v).out = stripped w.out ++ structView v := by
  simp [stripped, textItems_write_value v w, List.map_append, join_append,
    join_specText v]

/-- Rendering an object braceless (the top-level entry) appends exactly the
space-separated pair views. -/
theorem stripped_write_object (w : ColoredWriter) (ps : List (String × Value)) :
    stripped (write_object w ps true).out = stripped w.out ++ objViews ps := by
  cases hp : ps.isEmpty <;>
    simp [stripped, textItems_write_object ps true w, List.map_append, join_append,
      join_objText ps true w.kind, hp, String.empty_append]

theorem nlSpans_append (a b : List (TokenKind × String)) :
    nlSpans (a ++ b) = nlSpans a + nlSpans b := by
  simp [nlSpans]

@[simp]
theorem nlSpans_nil : nlSpans [] = 0 := rfl

@[simp]
theorem nlSpans_cons (p : TokenKind × String) (l : List (TokenKind × String)) :
    nlSpans (p :: l)
      = (if p.1 = TokenKind.none then p.2.data.count '\n' else 0) + nlSpans l := by
  simp [nlSpans]

@[simp]
theorem nl_count_lbrack : ("[" : String).data.count '\n' = 0 := rfl

@[simp]
theorem nl_count_rbrack : ("]" : String).data.count '\n' = 0 := rfl

@[simp]
theorem nl_count_comma : (", " : String).data.count '\n' = 0 := rfl

@[simp]
theorem nl_count_lbrace : ("\x7b " : String).data.count '\n' = 0 := rfl

@[simp]
theorem nl_count_rbrace : (" \x7d" : String).data.count '\n' = 0 := rfl

@[simp]
theorem nl_count_braces : ("\x7b\x7d" : String).data.count '\n' = 0 := rfl

@[simp]
theorem nl_count_colon : (": " : String).data.count '\n' = 0 := rfl

@[simp]
theorem nl_count_space : (" " : String).data.count '\n' = 0 := rfl

@[simp]
theorem nl_count_newline : ("\n" : String).data.count '\n' = 1 := rfl

mutual

/-- No `None`-annotated span produced by rendering a value contains a newline
character: those spans are fixed punctuation. -/
theorem nlSpans_specText : ∀ (v : Value), nlSpans (specText v) = 0
  | Value.str s => by cases hs : s.isEmpty <;> simp [specText, hs]
  | Value.null => by simp [specText]
  | Value.bool b => by simp [specText]
  | Value.num n => by simp [specText]
  | Value.arr es => by
    simp [specText, nlSpans_append, nlSpans_elemsText es true]
  | Value.obj ps => by
    cases hp : ps.isEmpty <;>
      simp [specText, hp, nlSpans_append, nlSpans_objText ps true]

theorem nlSpans_elemsText : ∀ (es : List Value) (first : Bool),
    nlSpans (elemsText es first) = 0
  | [], first => by simp [elemsText]
  | v :: rest, first => by
    cases first <;>
      simp [elemsText, nlSpans_append, nlSpans_specText v, nlSpans_elemsText rest false]

theorem nlSpans_objText : ∀ (ps : List (String × Value)) (first : Bool) (cur : TokenKind),
    nlSpans (objText cur ps first) = 0
  | [], first, cur => by simp [objText]
  | (k, v) :: rest, first, cur => by
    cases first <;> cases hk : k.isEmpty <;>
      simp [objText, hk, nlSpans_append, nlSpans_specText v,
        nlSpans_objText rest false (kindAfterValue v), ite_self]

end

@[simp]
theorem cw_write_deferred (w : ColoredWriter) (s : String) (h : s.isEmpty = false) :
    (w.write s).deferred = false := by
  rw [cw_write_eq w s h]

theorem nlNoneCount_write_value (w : ColoredWriter) (v : Value) :
    nlNoneCount (write_value w v).out = nlNoneCount w.out := by
  simp [nlNoneCount, textItems_write_value v w, nlSpans_append, nlSpans_specText v]

theorem nlNoneCount_write_object (w : ColoredWriter) (ps : List (String × Value)) :
    nlNoneCount (write_object w ps true).out = nlNoneCount w.out := by
  simp [nlNoneCount, textItems_write_object ps true w, nlSpans_append,
    nlSpans_objText ps true w.kind]

theorem getLast_of_append_two (a b : List OutItem) (x : OutItem) :
    (a ++ (b ++ [x])).getLast? = some x := by
  rw [← List.append_assoc]
  exact List.getLast?_concat _

/-- The output of a raw passthrough line followed by the terminating newline,
from the steady state (kind `None`, nothing pending): exactly the line bytes
(when non-empty) and the newline, no control emissions at all. -/
theorem raw_line_out (w : ColoredWriter) (line : String)
    (hk : w.kind = TokenKind.none) (hd : w.deferred = false) :
    (((w.write line).set_kind TokenKind.none).write "\n").out
      = w.out ++ (if line.isEmpty then [] else [OutItem.text TokenKind.none line])
          ++ [OutItem.text TokenKind.none "\n"] := by
  cases hline : line.isEmpty
  · rw [cw_write_eq w line hline]
    simp [cw_set_kind_eq, cw_write_eq, hk, hd, hline]
  · rw [cw_write_empty w line hline]
    simp [cw_set_kind_eq, cw_write_eq, hk, hd, hline]

/-- Every processed line ends in a `None`-kind newline write and leaves the
writer in the steady state. -/
theorem write_line_final (w : ColoredWriter) (line : String) (pr : Option Value) :
    (write_line w line pr).kind = TokenKind.none
      ∧ (write_line w line pr).deferred = false
      ∧ (write_line w line pr).out.getLast? = some (OutItem.text TokenKind.none "\n") := by
  refine ⟨?_, ?_, ?_⟩
  · simp [write_line]
  · simp only [write_line]
    exact cw_write_deferred _ "\n" rfl
  · simp only [write_line]
    rw [cw_write_eq _ "\n" rfl]
    simp only [cw_set_kind_kind, cw_set_kind_out]
    rw [List.append_assoc]
    exact getLast_of_append_two _ _ _

/-- The raw passthrough path of `write_line`, for every parse outcome the
code's match sends to `writer.write(line)`: from the steady state the output
grows by exactly the line bytes (kind `None`, when non-empty) and the
newline, with no control emission. -/
theorem write_line_raw (w : ColoredWriter) (line : String) (pr : Option Value)
    (hk : w.kind = TokenKind.none) (hd : w.deferred = false)
    (hraw : rawParse pr = true) :
    (write_line w line pr).out
      = w.out ++ ((if line.isEmpty then [] else [OutItem.text TokenKind.none line])
          ++ [OutItem.text TokenKind.none "\n"]) := by
  cases pr with
  | none => simpa [write_line] using raw_line_out w line hk hd
  | some v =>
    cases v with
    | null => simpa [write_line] using raw_line_out w line hk hd
    | bool b => simpa [write_line] using raw_line_out w line hk hd
    | num n => simpa [write_line] using raw_line_out w line hk hd
    | str s => simpa [write_line] using raw_line_out w line hk hd
    | arr es =>
      have hes : es.isEmpty = true := by simpa [rawParse] using hraw
      simpa [write_line, hes] using raw_line_out w line hk hd
    | obj ps =>
      have hps : ps.isEmpty = true := by simpa [rawParse] using hraw
      simpa [write_line, hps] using raw_line_out w line hk hd

/-- On every RAW-classified parse outcome, `write_line` is literally the
composition raw-write, `set_kind None`, newline-write. -/
theorem write_line_raw_eq (w : ColoredWriter) (line : String) (pr : Option Value)
    (hraw : rawParse pr = true) :
    write_line w line pr = ((w.write line).set_kind TokenKind.none).write "\n" := by
  cases pr with
  | none => rfl
  | some v =>
    cases v with
    | null => rfl
    | bool b => rfl
    | num n => rfl
    | str s => rfl
    | arr es =>
      have hes : es.isEmpty = true := by simpa [rawParse] using hraw
      simp [write_line, hes]
    | obj ps =>
      have hps : ps.isEmpty = true := by simpa [rawParse] using hraw
      simp [write_line, hps]

/-- C1: `write_line` classifies every line: a parse result that is an object
with at least one key renders as the braceless `key: value` pair sequence, an
array with at least one element renders as the bracketed value, and in every
other case (parse failure, empty object, empty array, top-level scalar) the
original line text is written out byte-identical — from the steady state not
even a control emission is added.  The trailing newline is the one
`write_line` always appends. -/
theorem claim_C1 (w : ColoredWriter) (line : String) (pr : Option Value)
    (hk : w.kind = TokenKind.none) (hd : w.deferred = false) :
    (∀ p ps, pr = some (Value.obj (p :: ps)) →
      stripped (write_line w line pr).out
        = stripped w.out ++ (objViews (p :: ps) ++ "\n")) ∧
    (∀ e es, pr = some (Value.arr (e :: es)) →
      stripped (write_line w line pr).out
        = stripped w.out ++ (("[" ++ (arrViews (e :: es) ++ "]")) ++ "\n")) ∧
    (rawParse pr = true →
      (write_line w line pr).out
        = w.out ++ ((if line.isEmpty then [] else [OutItem.text TokenKind.none line])
            ++ [OutItem.text TokenKind.none "\n"])) := by
  refine ⟨?_, ?_, write_line_raw w line pr hk hd⟩
  · rintro p ps rfl
    simp only [write_line, List.isEmpty_cons]
    rw [stripped_write_ne _ "\n" rfl]
    simp [stripped_write_object, String.append_assoc]
  · rintro e es rfl
    simp only [write_line, List.isEmpty_cons]
    rw [stripped_write_ne _ "\n" rfl]
    simp [stripped_write_value, structView, String.append_assoc]

theorem claim_C1_witness :
    stripped (write_line ColoredWriter.new "x"
        (some (Value.obj [("a", Value.null)]))).out = "a: null" ++ "\n" := by
  have h := (claim_C1 ColoredWriter.new "x" (some (Value.obj [("a", Value.null)]))
    rfl rfl).1 ("a", Value.null) [] rfl
  rw [h]
  decide

/-- C2 is false as stated: starting from a fresh writer, `set_kind Key`,
`write "a"` (flushes yellow), `set_kind None`, `write ""` (no-op), `set_kind
Key`, `write "b"` emits a second yellow control emission at `"b"` although the
kind requested there (`Key`) equals the last kind for which a flush actually
occurred (`Key`, at `"a"`): the two non-empty writes of the run, both under
requested kind `Key`, emit two control emissions, not one. -/
theorem claim_C2_cex :
    ((((((ColoredWriter.new.set_kind TokenKind.key).write "a").set_kind
        TokenKind.none).write "").set_kind TokenKind.key).write "b").out
      = [OutItem.ctrl (some Color.yellow), OutItem.text TokenKind.key "a",
         OutItem.ctrl (some Color.yellow), OutItem.text TokenKind.key "b"]
    ∧ ctrlCount ((((((ColoredWriter.new.set_kind TokenKind.key).write "a").set_kind
        TokenKind.none).write "").set_kind TokenKind.key).write "b").out = 2 := by
  constructor
  · decide
  · decide

/-- C2 (amended): a control emission happens at a non-empty `write` iff the
pending (`deferred`) flag is set; the flag is set by `set_kind` exactly when
the requested kind differs from the currently stored kind and is cleared by a
non-empty write.  Hence two consecutive non-empty writes with the same
requested kind and no intervening kind change emit at most one control
emission in total — exactly one when a flush was pending at the first write,
zero otherwise (not always exactly one, as the original claim said). -/
theorem claim_C2_amended :
    (∀ (w : ColoredWriter) (s : String), s.isEmpty = false →
      ctrlCount (w.write s).out
        = ctrlCount w.out + (if w.deferred then 1 else 0)) ∧
    (∀ (w : ColoredWriter) (k : TokenKind),
      (w.set_kind k).deferred = (w.deferred || decide (w.kind ≠ k))) ∧
    (∀ (w : ColoredWriter) (s : String), s.isEmpty = false →
      (w.write s).deferred = false) ∧
    (∀ (w : ColoredWriter) (k : TokenKind) (s1 s2 : String),
      s1.isEmpty = false → s2.isEmpty = false →
      ctrlCount ((((w.set_kind k).write s1).set_kind k).write s2).out
        = ctrlCount w.out + (if (w.set_kind k).deferred then 1 else 0)) := by
  refine ⟨?_, ?_, ?_, ?_⟩
  · intro w s h
    rw [cw_write_eq w s h]
    cases hd : w.deferred <;> simp [ctrlCount_append, ctrlCount]
  · intro w k
    rw [cw_set_kind_eq]
  · intro w s h
    exact cw_write_deferred w s h
  · intro w k s1 s2 h1 h2
    rw [cw_write_eq _ s2 h2, cw_write_eq _ s1 h1]
    cases hd : (w.set_kind k).deferred <;>
      simp [cw_set_kind_eq, ctrlCount_append, ctrlCount]

theorem claim_C2_witness :
    ctrlCount ((((ColoredWriter.new.set_kind TokenKind.key).write "a").set_kind
        TokenKind.key).write "b").out = 1 := by
  have h := claim_C2_amended.2.2.2 ColoredWriter.new TokenKind.key "a" "b" rfl rfl
  rw [h]
  decide

/-- C3 is false as stated: in the rendering of an object whose first value is
the string `"x"`, the separator space before the second pair is written while
the writer's kind is still `String` (the code calls `writer.write(" ")` with
no `set_kind`), not with kind `None`: the output holds
`text TokenKind.string " "` and no `None`-kind space at all. -/
theorem claim_C3_cex :
    (write_object ColoredWriter.new
        [("a", Value.str "x"), ("b", Value.bool true)] true).out
      = [OutItem.ctrl (some Color.yellow), OutItem.text TokenKind.key "a",
         OutItem.ctrl Option.none, OutItem.text TokenKind.none ": ",
         OutItem.ctrl (some Color.cyan), OutItem.text TokenKind.string "x",
         OutItem.text TokenKind.string " ",
         OutItem.ctrl (some Color.yellow), OutItem.text TokenKind.key "b",
         OutItem.ctrl Option.none, OutItem.text TokenKind.none ": ",
         OutItem.ctrl (some Color.green), OutItem.text TokenKind.value "true"]
    ∧ OutItem.text TokenKind.none " " ∉ (write_object ColoredWriter.new
        [("a", Value.str "x"), ("b", Value.bool true)] true).out := by
  constructor
  · decide
  · decide

/-- C3 (amended): in `write_object`, every pair with index `> 0` is preceded
by a single space written WITHOUT a kind change — it is annotated with the
writer's kind on entry to that pair, i.e. the kind the previous pair's value
left behind (see `objText`: the separator span carries `cur`, threaded as
`kindAfterValue` of the preceding value) — while each key is written with
kind `Key` and each `": "` separator with kind `None`, as the claim said. -/
theorem claim_C3_amended (w : ColoredWriter) (ps : List (String × Value))
    (first : Bool) :
    textItems (write_object w ps first).out
      = textItems w.out ++ objText w.kind ps first :=
  textItems_write_object ps first w

/-- C4: a zero-length `write` produces no output and leaves the writer state
(including the pending-flush flag) unchanged, so it neither emits nor
suppresses a control emission due later; consequently the line `{"":""}`
(parsed as the object with one empty key and empty string value) renders with
color-stripped output `": "` followed by the terminating newline. -/
theorem claim_C4 :
    (∀ (w : ColoredWriter), w.write "" = w) ∧
    (∀ (w : ColoredWriter) (s : String), (w.write "").write s = w.write s) ∧
    stripped (write_line ColoredWriter.new "\x7b\"\":\"\"\x7d"
        (some (Value.obj [("", Value.str "")]))).out = ": " ++ "\n" := by
  refine ⟨?_, ?_, ?_⟩
  · intro w
    exact cw_write_empty w "" rfl
  · intro w s
    rw [cw_write_empty w "" rfl]
  · decide

/-- C5: rendering followed by stripping the control emissions yields the
structural view: any (nested) value appends its `structView` — arrays as
`[v1, v2, ...]`, nested objects wrapped as `{ ... }` (or `{}` when empty) —
and the top-level braceless object entry appends the space-separated
`key1: v1 key2: v2` views with no surrounding braces. -/
theorem claim_C5 (w : ColoredWriter) (v : Value) (ps : List (String × Value))
    (hps : ps ≠ []) :
    stripped (write_value w v).out = stripped w.out ++ structView v ∧
    stripped (write_object w ps true).out = stripped w.out ++ objViews ps :=
  ⟨stripped_write_value w v, stripped_write_object w ps⟩

theorem claim_C5_witness :
    stripped (write_value ColoredWriter.new
        (Value.arr [Value.str "v", Value.obj [("k", Value.str "w")]])).out
      = stripped ColoredWriter.new.out
        ++ structView (Value.arr [Value.str "v", Value.obj [("k", Value.str "w")]]) ∧
    stripped (write_object ColoredWriter.new [("k", Value.null)] true).out
      = stripped ColoredWriter.new.out ++ objViews [("k", Value.null)] :=
  claim_C5 ColoredWriter.new
    (Value.arr [Value.str "v", Value.obj [("k", Value.str "w")]])
    [("k", Value.null)] (List.cons_ne_nil _ _)

/-- C10: a nested empty string value emits nothing at all — no text bytes and
no control emission (the buffer is untouched); hence `[""]` renders with
color-stripped output `[]` (plus the newline), byte-identical to the
color-stripped rendering of an actual empty nested array at the same
position. -/
theorem claim_C10 :
    (∀ (w : ColoredWriter), (write_value w (Value.str "")).out = w.out) ∧
    stripped (write_line ColoredWriter.new "[\"\"]"
        (some (Value.arr [Value.str ""]))).out = "[]" ++ "\n" ∧
    (∀ (w : ColoredWriter),
      stripped (write_value w (Value.arr [Value.str ""])).out
        = stripped (write_value w (Value.arr [])).out) := by
  refine ⟨?_, by decide, ?_⟩
  · intro w
    simp [write_value, cw_write_empty, cw_set_kind_out]
  · intro w
    rw [stripped_write_value, stripped_write_value]
    have h : structView (Value.arr [Value.str ""]) = structView (Value.arr []) := by
      decide
    rw [h]

/-- C6: for every line the classification sends down the RAW path, the line
bytes are written through the deferred color writer while its current kind is
`None` (the `text` item carries annotation `TokenKind.none`), followed by the
newline; the writer starts its life in that state (`ColoredWriter.new`) and
`write_line` re-establishes it at every line end, so the steady-state
hypotheses hold at every line of the stream. -/
theorem claim_C6 (w : ColoredWriter) (line : String) (pr : Option Value)
    (hk : w.kind = TokenKind.none) (hd : w.deferred = false)
    (hraw : rawParse pr = true) :
    ColoredWriter.new.kind = TokenKind.none ∧
    (write_line w line pr).out
      = w.out ++ ((if line.isEmpty then [] else [OutItem.text TokenKind.none line])
          ++ [OutItem.text TokenKind.none "\n"]) :=
  ⟨rfl, write_line_raw w line pr hk hd hraw⟩

theorem claim_C6_witness :
    ColoredWriter.new.kind = TokenKind.none ∧
    (write_line ColoredWriter.new "text" Option.none).out
      = ColoredWriter.new.out
        ++ ((if ("text" : String).isEmpty then []
              else [OutItem.text TokenKind.none "text"])
          ++ [OutItem.text TokenKind.none "\n"]) :=
  claim_C6 ColoredWriter.new "text" Option.none rfl rfl rfl

theorem nlNoneCount_write (w : ColoredWriter) (s : String) :
    nlNoneCount (w.write s).out
      = nlNoneCount w.out
        + (if w.kind = TokenKind.none then s.data.count '\n' else 0) := by
  cases h : s.isEmpty
  · rw [cw_write_eq w s h]
    simp [nlNoneCount, nlSpans_append]
  · rw [cw_write_empty w s h]
    have hs : s = "" := (String.isEmpty_iff s).mp h
    subst hs
    simp

/-- C7: processing any line writes exactly one newline character with token
kind `None` (the terminating one — the renderer's own `None`-kind spans are
newline-free punctuation and string/key/scalar spans carry other kinds), it
is the very last thing written, and afterwards the writer's kind is `None`
with no pending flush — the state the next line starts from. -/
theorem claim_C7 (w : ColoredWriter) (line : String) (pr : Option Value)
    (hline : line.data.count '\n' = 0) :
    nlNoneCount (write_line w line pr).out = nlNoneCount w.out + 1
      ∧ (write_line w line pr).out.getLast? = some (OutItem.text TokenKind.none "\n")
      ∧ (write_line w line pr).kind = TokenKind.none
      ∧ (write_line w line pr).deferred = false := by
  refine ⟨?_, (write_line_final w line pr).2.2, (write_line_final w line pr).1,
    (write_line_final w line pr).2.1⟩
  have hnl : ∀ w1 : ColoredWriter,
      nlNoneCount ((w1.set_kind TokenKind.none).write "\n").out
        = nlNoneCount w1.out + 1 := by
    intro w1
    rw [nlNoneCount_write]
    simp [nlNoneCount, cw_set_kind_out]
  cases hr : rawParse pr
  · cases pr with
    | none => simp [rawParse] at hr
    | some v =>
      cases v with
      | null => simp [rawParse] at hr
      | bool b => simp [rawParse] at hr
      | num n => simp [rawParse] at hr
      | str st => simp [rawParse] at hr
      | arr es =>
        have hes : es.isEmpty = false := by simpa [rawParse] using hr
        simp only [write_line, hes, Bool.false_eq_true, if_false]
        rw [hnl, nlNoneCount_write_value]
      | obj ps =>
        have hps : ps.isEmpty = false := by simpa [rawParse] using hr
        simp only [write_line, hps, Bool.false_eq_true, if_false]
        rw [hnl, nlNoneCount_write_object]
  · rw [write_line_raw_eq w line pr hr, hnl, nlNoneCount_write, hline]
    simp

theorem claim_C7_witness :
    nlNoneCount (write_line ColoredWriter.new "t"
        (some (Value.arr [Value.str "a\nb"]))).out
      = nlNoneCount ColoredWriter.new.out + 1 := by
  have h := claim_C7 ColoredWriter.new "t" (some (Value.arr [Value.str "a\nb"])) rfl
  exact h.1

theorem natDigitsAux_chars (fuel : Nat) :
    ∀ (n : Nat) (c : Char), c ∈ natDigitsAux fuel n
      → ∃ m, m < 10 ∧ c = Nat.digitChar m := by
  induction fuel with
  | zero => intro n c hc; simp [natDigitsAux] at hc
  | succ f ih =>
    intro n c hc
    simp only [natDigitsAux] at hc
    by_cases h : n < 10
    · rw [if_pos h] at hc
      simp at hc
      exact ⟨n, h, hc⟩
    · rw [if_neg h] at hc
      rcases List.mem_append.mp hc with h1 | h2
      · exact ih _ _ h1
      · simp at h2
        exact ⟨n % 10, Nat.mod_lt _ (by omega), h2⟩

theorem dot_not_mem_natDigits (n : Nat) : '.' ∉ natDigits n := by
  intro hc
  obtain ⟨m, hm, he⟩ := natDigitsAux_chars (n + 1) n '.' hc
  have hall : ∀ m' : Nat, m' < 10 → Nat.digitChar m' ≠ '.' := by decide
  exact hall m hm he.symm

/-- The integer rendering never contains a decimal point. -/
theorem dot_not_mem_intStr (i : Int) : '.' ∉ (intStr i).data := by
  unfold intStr
  split
  · intro hc
    rw [String.data_append] at hc
    rcases List.mem_append.mp hc with h1 | h2
    · exact absurd h1 (by decide)
    · exact dot_not_mem_natDigits _ h2
  · intro hc
    exact dot_not_mem_natDigits _ hc

/-- The fractional rendering always shows at least one digit. -/
theorem fracStr_length (frac : List (Fin 10)) : 1 ≤ (fracStr frac).length := by
  cases hf : frac.isEmpty
  · cases frac with
    | nil => simp at hf
    | cons d rest => simp [fracStr, hf, String.length_mk]
  · simp only [fracStr, hf, if_true]
    decide

/-- Every character of the fractional rendering is a decimal digit. -/
theorem fracStr_digits (frac : List (Fin 10)) :
    ∀ c ∈ (fracStr frac).data, c.isDigit = true := by
  cases hf : frac.isEmpty
  · intro c hc
    simp only [fracStr, hf, Bool.false_eq_true, if_false] at hc
    obtain ⟨d, _, rfl⟩ := List.mem_map.mp hc
    have hall : ∀ d : Fin 10, (Nat.digitChar d.val).isDigit = true := by decide
    exact hall d
  · intro c hc
    simp only [fracStr, hf, if_true] at hc
    have : c = '0' := by simpa using hc
    subst this
    decide

/-- C9: numbers, booleans and null are written with token kind `Value` as the
canonical scalar text — integers without a decimal point, floats with at
least one digit after the point, `true`/`false`/`null` literals — and the
spec's numeric examples hold: the parse of `[1e2]` (the float `100.0`)
renders color-stripped as `[100.0]`, the parse of `[0.00]` (the float `0.0`)
as `[0.0]`, each plus the terminating newline. -/
theorem claim_C9 :
    (∀ (w : ColoredWriter) (n : JNumber),
      textItems (write_value w (Value.num n)).out
        = textItems w.out ++ [(TokenKind.value, JNumber.toCanonical n)]) ∧
    (∀ (w : ColoredWriter) (b : Bool),
      textItems (write_value w (Value.bool b)).out
        = textItems w.out ++ [(TokenKind.value, if b then "true" else "false")]) ∧
    (∀ (w : ColoredWriter),
      textItems (write_value w Value.null).out
        = textItems w.out ++ [(TokenKind.value, "null")]) ∧
    (∀ i : Int, '.' ∉ (JNumber.toCanonical (JNumber.int i)).data) ∧
    (∀ (ip : Int) (frac : List (Fin 10)),
      JNumber.toCanonical (JNumber.float ip frac) = intStr ip ++ "." ++ fracStr frac
        ∧ 1 ≤ (fracStr frac).length
        ∧ ∀ c ∈ (fracStr frac).data, c.isDigit = true) ∧
    stripped (write_line ColoredWriter.new "[1e2]"
        (some (Value.arr [Value.num (JNumber.float 100 [])]))).out
      = "[100.0]" ++ "\n" ∧
    stripped (write_line ColoredWriter.new "[0.00]"
        (some (Value.arr [Value.num (JNumber.float 0 [])]))).out
      = "[0.0]" ++ "\n" := by
  refine ⟨?_, ?_, ?_, ?_, ?_, by decide, by decide⟩
  · intro w n
    simpa [specText, scalarString] using textItems_write_value (Value.num n) w
  · intro w b
    simpa [specText, scalarString] using textItems_write_value (Value.bool b) w
  · intro w
    simpa [specText, scalarString] using textItems_write_value Value.null w
  · intro i
    exact dot_not_mem_intStr i
  · intro ip frac
    exact ⟨rfl, fracStr_length frac, fracStr_digits frac⟩

theorem claim_C9_witness : ('5' : Char).isDigit = true := by
  have h := (claim_C9.2.2.2.2.1 0 [(5 : Fin 10)]).2.2 '5' (by decide)
  exact h

theorem fallible_flush_ok {σ ε : Type} (S : Fallible.Sink σ ε)
    (hS : Fallible.Infallible S) (w : Fallible.Writer σ) :
    ∃ w', Fallible.flush S w = Except.ok w' := by
  unfold Fallible.flush
  cases hd : w.deferred
  · simp only [hd, Bool.false_eq_true, if_false]
    exact ⟨w, rfl⟩
  · simp only [hd, if_true]
    cases hk : tokenColor w.kind with
    | none =>
      obtain ⟨st, hst⟩ := hS.1 w.writer
      exact ⟨{ writer := st, kind := w.kind, deferred := false }, by simp only [hst]⟩
    | some c =>
      obtain ⟨st, hst⟩ := hS.2.1 c w.writer
      exact ⟨{ writer := st, kind := w.kind, deferred := false }, by simp only [hst]⟩

theorem fallible_flush_err {σ ε : Type} (S : Fallible.Sink σ ε)
    (w : Fallible.Writer σ) (e : ε) (h : Fallible.flush S w = Except.error e) :
    Fallible.SinkRaised S e := by
  unfold Fallible.flush at h
  cases hd : w.deferred
  · rw [hd] at h
    simp at h
  · rw [hd] at h
    simp only [if_true] at h
    cases hk : tokenColor w.kind with
    | none =>
      simp only [hk] at h
      cases hr : S.reset w.writer with
      | error e1 =>
        simp only [hr] at h
        injection h with he
        exact Or.inl ⟨w.writer, he ▸ hr⟩
      | ok st =>
        simp only [hr] at h
        exact absurd h (by simp)
    | some c =>
      simp only [hk] at h
      cases hr : S.set_color c w.writer with
      | error e1 =>
        simp only [hr] at h
        injection h with he
        exact Or.inr (Or.inl ⟨c, w.writer, he ▸ hr⟩)
      | ok st =>
        simp only [hr] at h
        exact absurd h (by simp)

theorem fallible_write_ok {σ ε : Type} (S : Fallible.Sink σ ε)
    (hS : Fallible.Infallible S) (w : Fallible.Writer σ) (s : String) :
    ∃ w', Fallible.write S w s = Except.ok w' := by
  unfold Fallible.write
  cases hse : s.isEmpty
  · simp only [hse, Bool.false_eq_true, if_false]
    obtain ⟨w1, h1⟩ := fallible_flush_ok S hS w
    obtain ⟨st, h2⟩ := hS.2.2 s w1.writer
    exact ⟨{ writer := st, kind := w1.kind, deferred := w1.deferred },
      by simp only [h1, h2]⟩
  · exact ⟨w, by simp only [hse, if_true]⟩

theorem fallible_write_err {σ ε : Type} (S : Fallible.Sink σ ε)
    (w : Fallible.Writer σ) (s : String) (e : ε)
    (h : Fallible.write S w s = Except.error e) : Fallible.SinkRaised S e := by
  unfold Fallible.write at h
  cases hse : s.isEmpty
  · rw [hse] at h
    simp only [Bool.false_eq_true, if_false] at h
    cases hf : Fallible.flush S w with
    | error e1 =>
      simp only [hf] at h
      injection h with he
      exact fallible_flush_err S w e (he ▸ hf)
    | ok w1 =>
      simp only [hf] at h
      cases hw : S.write_all s w1.writer with
      | error e1 =>
        simp only [hw] at h
        injection h with he
        exact Or.inr (Or.inr ⟨s, w1.writer, he ▸ hw⟩)
      | ok st =>
        simp only [hw] at h
        exact absurd h (by simp)
  · rw [hse] at h
    simp at h

mutual

theorem fallible_write_value_ok : ∀ (v : Value) {σ ε : Type}
    (S : Fallible.Sink σ ε) (hS : Fallible.Infallible S) (w : Fallible.Writer σ),
    ∃ w', Fallible.write_value S w v = Except.ok w'
  | Value.str s, _, _, S, hS, w => by
    simp only [Fallible.write_value]
    exact fallible_write_ok S hS _ s
  | Value.null, _, _, S, hS, w => by
    simp only [Fallible.write_value]
    exact fallible_write_ok S hS _ _
  | Value.bool b, _, _, S, hS, w => by
    simp only [Fallible.write_value]
    exact fallible_write_ok S hS _ _
  | Value.num n, _, _, S, hS, w => by
    simp only [Fallible.write_value]
    exact fallible_write_ok S hS _ _
  | Value.arr es, _, _, S, hS, w => by
    simp only [Fallible.write_value]
    obtain ⟨w1, h1⟩ := fallible_write_ok S hS (Fallible.set_kind w TokenKind.none) "["
    simp only [h1]
    obtain ⟨w2, h2⟩ := fallible_write_elems_ok es true S hS w1
    simp only [h2]
    exact fallible_write_ok S hS _ "]"
  | Value.obj ps, _, _, S, hS, w => by
    simp only [Fallible.write_value]
    cases hps : ps.isEmpty
    · simp only [Bool.false_eq_true, if_false]
      obtain ⟨w1, h1⟩ :=
        fallible_write_ok S hS (Fallible.set_kind w TokenKind.none) "\x7b "
      simp only [h1]
      obtain ⟨w2, h2⟩ := fallible_write_object_ok ps true S hS w1
      simp only [h2]
      exact fallible_write_ok S hS _ " \x7d"
    · simp only [if_true]
      exact fallible_write_ok S hS _ _

theorem fallible_write_elems_ok : ∀ (es : List Value) (first : Bool) {σ ε : Type}
    (S : Fallible.Sink σ ε) (hS : Fallible.Infallible S) (w : Fallible.Writer σ),
    ∃ w', Fallible.write_elems S w es first = Except.ok w'
  | [], first, _, _, S, hS, w => ⟨w, rfl⟩
  | v :: rest, first, _, _, S, hS, w => by
    simp only [Fallible.write_elems]
    cases first
    · obtain ⟨w1, h1⟩ := fallible_write_ok S hS (Fallible.set_kind w TokenKind.none) ", "
      simp only [Bool.false_eq_true, if_false, h1]
      obtain ⟨w2, h2⟩ := fallible_write_value_ok v S hS w1
      simp only [h2]
      exact fallible_write_elems_ok rest false S hS w2
    · simp only [if_true]
      obtain ⟨w2, h2⟩ := fallible_write_value_ok v S hS w
      simp only [h2]
      exact fallible_write_elems_ok rest false S hS w2

theorem fallible_write_object_ok : ∀ (ps : List (String × Value)) (first : Bool)
    {σ ε : Type} (S : Fallible.Sink σ ε) (hS : Fallible.Infallible S)
    (w : Fallible.Writer σ),
    ∃ w', Fallible.write_object S w ps first = Except.ok w'
  | [], first, _, _, S, hS, w => ⟨w, rfl⟩
  | (k, v) :: rest, first, _, _, S, hS, w => by
    simp only [Fallible.write_object]
    cases first
    · obtain ⟨w1, h1⟩ := fallible_write_ok S hS w " "
      simp only [Bool.false_eq_true, if_false, h1]
      obtain ⟨w2, h2⟩ := fallible_write_ok S hS (Fallible.set_kind w1 TokenKind.key) k
      simp only [h2]
      obtain ⟨w3, h3⟩ := fallible_write_ok S hS (Fallible.set_kind w2 TokenKind.none) ": "
      simp only [h3]
      obtain ⟨w4, h4⟩ := fallible_write_value_ok v S hS w3
      simp only [h4]
      exact fallible_write_object_ok rest false S hS w4
    · simp only [if_true]
      obtain ⟨w2, h2⟩ := fallible_write_ok S hS (Fallible.set_kind w TokenKind.key) k
      simp only [h2]
      obtain ⟨w3, h3⟩ := fallible_write_ok S hS (Fallible.set_kind w2 TokenKind.none) ": "
      simp only [h3]
      obtain ⟨w4, h4⟩ := fallible_write_value_ok v S hS w3
      simp only [h4]
      exact fallible_write_object_ok rest false S hS w4

end

mutual

theorem fallible_write_value_err : ∀ (v : Value) {σ ε : Type}
    (S : Fallible.Sink σ ε) (w : Fallible.Writer σ) (e : ε),
    Fallible.write_value S w v = Except.error e → Fallible.SinkRaised S e
  | Value.str s, _, _, S, w, e => by
    simp only [Fallible.write_value]
    exact fallible_write_err S _ s e
  | Value.null, _, _, S, w, e => by
    simp only [Fallible.write_value]
    exact fallible_write_err S _ _ e
  | Value.bool b, _, _, S, w, e => by
    simp only [Fallible.write_value]
    exact fallible_write_err S _ _ e
  | Value.num n, _, _, S, w, e => by
    simp only [Fallible.write_value]
    exact fallible_write_err S _ _ e
  | Value.arr es, _, _, S, w, e => by
    simp only [Fallible.write_value]
    intro h
    cases h1 : Fallible.write S (Fallible.set_kind w TokenKind.none) "[" with
    | error e1 =>
      simp only [h1] at h
      injection h with he
      exact fallible_write_err S _ "[" e (he ▸ h1)
    | ok w1 =>
      simp only [h1] at h
      cases h2 : Fallible.write_elems S w1 es true with
      | error e1 =>
        simp only [h2] at h
        injection h with he
        exact fallible_write_elems_err es true S w1 e (he ▸ h2)
      | ok w2 =>
        simp only [h2] at h
        exact fallible_write_err S _ "]" e h
  | Value.obj ps, _, _, S, w, e => by
    simp only [Fallible.write_value]
    intro h
    by_cases hps : ps.isEmpty = true
    · rw [if_pos hps] at h
      exact fallible_write_err S _ _ e h
    · rw [if_neg hps] at h
      cases h1 : Fallible.write S (Fallible.set_kind w TokenKind.none) "\x7b " with
      | error e1 =>
        simp only [h1] at h
        injection h with he
        exact fallible_write_err S _ "\x7b " e (he ▸ h1)
      | ok w1 =>
        simp only [h1] at h
        cases h2 : Fallible.write_object S w1 ps true with
        | error e1 =>
          simp only [h2] at h
          injection h with he
          exact fallible_write_object_err ps true S w1 e (he ▸ h2)
        | ok w2 =>
          simp only [h2] at h
          exact fallible_write_err S _ " \x7d" e h

theorem fallible_write_elems_err : ∀ (es : List Value) (first : Bool) {σ ε : Type}
    (S : Fallible.Sink σ ε) (w : Fallible.Writer σ) (e : ε),
    Fallible.write_elems S w es first = Except.error e → Fallible.SinkRaised S e
  | [], first, _, _, S, w, e => by
    intro h
    exact absurd h (by simp [Fallible.write_elems])
  | v :: rest, first, _, _, S, w, e => by
    simp only [Fallible.write_elems]
    intro h
    cases hsep : (if first then Except.ok w
        else Fallible.write S (Fallible.set_kind w TokenKind.none) ", ") with
    | error e1 =>
      simp only [hsep] at h
      injection h with he
      cases first
      · rw [if_neg (by simp)] at hsep
        exact fallible_write_err S _ ", " e (he ▸ hsep)
      · rw [if_pos rfl] at hsep
        exact absurd hsep (by simp)
    | ok w1 =>
      simp only [hsep] at h
      cases h2 : Fallible.write_value S w1 v with
      | error e1 =>
        simp only [h2] at h
        injection h with he
        exact fallible_write_value_err v S w1 e (he ▸ h2)
      | ok w2 =>
        simp only [h2] at h
        exact fallible_write_elems_err rest false S w2 e h

theorem fallible_write_object_err : ∀ (ps : List (String × Value)) (first : Bool)
    {σ ε : Type} (S : Fallible.Sink σ ε) (w : Fallible.Writer σ) (e : ε),
    Fallible.write_object S w ps first = Except.error e → Fallible.SinkRaised S e
  | [], first, _, _, S, w, e => by
    intro h
    exact absurd h (by simp [Fallible.write_object])
  | (k, v) :: rest, first, _, _, S, w, e => by
    simp only [Fallible.write_object]
    intro h
    cases hsep : (if first then Except.ok w else Fallible.write S w " ") with
    | error e1 =>
      simp only [hsep] at h
      injection h with he
      cases first
      · rw [if_neg (by simp)] at hsep
        exact fallible_write_err S _ " " e (he ▸ hsep)
      · rw [if_pos rfl] at hsep
        exact absurd hsep (by simp)
    | ok w1 =>
      simp only [hsep] at h
      cases h2 : Fallible.write S (Fallible.set_kind w1 TokenKind.key) k with
      | error e1 =>
        simp only [h2] at h
        injection h with he
        exact fallible_write_err S _ k e (he ▸ h2)
      | ok w2 =>
        simp only [h2] at h
        cases h3 : Fallible.write S (Fallible.set_kind w2 TokenKind.none) ": " with
        | error e1 =>
          simp only [h3] at h
          injection h with he
          exact fallible_write_err S _ ": " e (he ▸ h3)
        | ok w3 =>
          simp only [h3] at h
          cases h4 : Fallible.write_value S w3 v with
          | error e1 =>
            simp only [h4] at h
            injection h with he
            exact fallible_write_value_err v S w3 e (he ▸ h4)
          | ok w4 =>
            simp only [h4] at h
            exact fallible_write_object_err rest false S w4 e h

end

theorem fallible_write_line_ok {σ ε : Type} (S : Fallible.Sink σ ε)
    (hS : Fallible.Infallible S) (w : Fallible.Writer σ) (line : String)
    (pr : Option Value) :
    ∃ w', Fallible.write_line S w line pr = Except.ok w' := by
  unfold Fallible.write_line
  have hnl : ∀ w1 : Fallible.Writer σ,
      ∃ w', Fallible.write S (Fallible.set_kind w1 TokenKind.none) "\n"
        = Except.ok w' := fun w1 => fallible_write_ok S hS _ "\n"
  cases pr with
  | none =>
    obtain ⟨w1, h1⟩ := fallible_write_ok S hS w line
    simp only [h1]
    exact hnl w1
  | some v =>
    cases v with
    | null =>
      obtain ⟨w1, h1⟩ := fallible_write_ok S hS w line
      simp only [h1]
      exact hnl w1
    | bool b =>
      obtain ⟨w1, h1⟩ := fallible_write_ok S hS w line
      simp only [h1]
      exact hnl w1
    | num n =>
      obtain ⟨w1, h1⟩ := fallible_write_ok S hS w line
      simp only [h1]
      exact hnl w1
    | str st =>
      obtain ⟨w1, h1⟩ := fallible_write_ok S hS w line
      simp only [h1]
      exact hnl w1
    | arr es =>
      cases hes : es.isEmpty
      · obtain ⟨w1, h1⟩ := fallible_write_value_ok (Value.arr es) S hS w
        simp only [hes, Bool.false_eq_true, if_false, h1]
        exact hnl w1
      · obtain ⟨w1, h1⟩ := fallible_write_ok S hS w line
        simp only [hes, if_true, h1]
        exact hnl w1
    | obj ps =>
      cases hps : ps.isEmpty
      · obtain ⟨w1, h1⟩ := fallible_write_object_ok ps true S hS w
        simp only [hps, Bool.false_eq_true, if_false, h1]
        exact hnl w1
      · obtain ⟨w1, h1⟩ := fallible_write_ok S hS w line
        simp only [hps, if_true, h1]
        exact hnl w1

theorem fallible_write_line_err {σ ε : Type} (S : Fallible.Sink σ ε)
    (w : Fallible.Writer σ) (line : String) (pr : Option Value) (e : ε)
    (h : Fallible.write_line S w line pr = Except.error e) :
    Fallible.SinkRaised S e := by
  unfold Fallible.write_line at h
  have tail : ∀ (w1 : Fallible.Writer σ),
      Fallible.write S (Fallible.set_kind w1 TokenKind.none) "\n" = Except.error e
        → Fallible.SinkRaised S e := fun w1 hh => fallible_write_err S _ "\n" e hh
  cases pr with
  | none =>
    cases h1 : Fallible.write S w line with
    | error e1 =>
      simp only [h1] at h
      injection h with he
      exact fallible_write_err S w line e (he ▸ h1)
    | ok w1 =>
      simp only [h1] at h
      exact tail w1 h
  | some v =>
    cases v with
    | null =>
      cases h1 : Fallible.write S w line with
      | error e1 =>
        simp only [h1] at h
        injection h with he
        exact fallible_write_err S w line e (he ▸ h1)
      | ok w1 =>
        simp only [h1] at h
        exact tail w1 h
    | bool b =>
      cases h1 : Fallible.write S w line with
      | error e1 =>
        simp only [h1] at h
        injection h with he
        exact fallible_write_err S w line e (he ▸ h1)
      | ok w1 =>
        simp only [h1] at h
        exact tail w1 h
    | num n =>
      cases h1 : Fallible.write S w line with
      | error e1 =>
        simp only [h1] at h
        injection h with he
        exact fallible_write_err S w line e (he ▸ h1)
      | ok w1 =>
        simp only [h1] at h
        exact tail w1 h
    | str st =>
      cases h1 : Fallible.write S w line with
      | error e1 =>
        simp only [h1] at h
        injection h with he
        exact fallible_write_err S w line e (he ▸ h1)
      | ok w1 =>
        simp only [h1] at h
        exact tail w1 h
    | arr es =>
      cases hes : es.isEmpty
      · cases h1 : Fallible.write_value S w (Value.arr es) with
        | error e1 =>
          simp only [hes, Bool.false_eq_true, if_false, h1] at h
          injection h with he
          exact fallible_write_value_err (Value.arr es) S w e (he ▸ h1)
        | ok w1 =>
          simp only [hes, Bool.false_eq_true, if_false, h1] at h
          exact tail w1 h
      · cases h1 : Fallible.write S w line with
        | error e1 =>
          simp only [hes, if_true, h1] at h
          injection h with he
          exact fallible_write_err S w line e (he ▸ h1)
        | ok w1 =>
          simp only [hes, if_true, h1] at h
          exact tail w1 h
    | obj ps =>
      cases hps : ps.isEmpty
      · cases h1 : Fallible.write_object S w ps true with
        | error e1 =>
          simp only [hps, Bool.false_eq_true, if_false, h1] at h
          injection h with he
          exact fallible_write_object_err ps true S w e (he ▸ h1)
        | ok w1 =>
          simp only [hps, Bool.false_eq_true, if_false, h1] at h
          exact tail w1 h
      · cases h1 : Fallible.write S w line with
        | error e1 =>
          simp only [hps, if_true, h1] at h
          injection h with he
          exact fallible_write_err S w line e (he ▸ h1)
        | ok w1 =>
          simp only [hps, if_true, h1] at h
          exact tail w1 h

/-- C8: processing a line fails exactly through the underlying sink: when
every sink operation succeeds, `write_line` always succeeds — in particular a
parse failure (`pr = Option.none`) is never surfaced as an error, it only
selects the RAW path — and whenever `write_line` returns an error, that error
is one some sink operation itself produced (the monadic `?` chain aborts the
line at the first sink failure and propagates it unchanged); on a sink whose
`write_all` always fails, even a RAW line propagates exactly that error. -/
theorem claim_C8 :
    (∀ {σ ε : Type} (S : Fallible.Sink σ ε), Fallible.Infallible S →
      ∀ (w : Fallible.Writer σ) (line : String) (pr : Option Value),
        ∃ w', Fallible.write_line S w line pr = Except.ok w') ∧
    (∀ {σ ε : Type} (S : Fallible.Sink σ ε) (w : Fallible.Writer σ)
        (line : String) (pr : Option Value) (e : ε),
      Fallible.write_line S w line pr = Except.error e → Fallible.SinkRaised S e) ∧
    Fallible.write_line Fallible.brokenSink
        { writer := (), kind := TokenKind.none, deferred := false } "x" Option.none
      = Except.error "broken pipe" := by
  refine ⟨?_, ?_, rfl⟩
  · intro σ ε S hS w line pr
    exact fallible_write_line_ok S hS w line pr
  · intro σ ε S w line pr e h
    exact fallible_write_line_err S w line pr e h

theorem claim_C8_witness :
    ∃ w', Fallible.write_line Fallible.okSink
        { writer := (), kind := TokenKind.none, deferred := false } "text" Option.none
      = Except.ok w' :=
  claim_C8.1 Fallible.okSink
    ⟨fun _ => ⟨(), rfl⟩, fun _ _ => ⟨(), rfl⟩, fun _ _ => ⟨(), rfl⟩⟩
    { writer := (), kind := TokenKind.none, deferred := false } "text" Option.none
